import Mathlib

/-!
Verification of the gte static/template web server against its
natural-language specification.

The development shallowly embeds the two source files of the repository:

* `config` (descriptor loading, environment overrides, locale resources,
  route parameter extraction), and
* `server` (construction-time route duplication check and the per-request
  resolution pipeline of `ServeHTTP`).

Filesystem access, JSON decoding, HTTP and the locale machinery of
`golang.org/x/text` are external collaborators; they enter the model as
explicit inputs (existence oracles `String → Bool`, directory states,
pre-decoded descriptor outcomes).  Functions of the repository's own
`util` package are not part of the provided sources; each such function
is modelled from the spec and carries a doc comment saying so.
-/

set_option autoImplicit false

namespace Gte

/-! ## String helpers

All string operations are defined on the underlying character lists so
that every definition evaluates by kernel reduction.  They model the Go
standard-library functions used by the sources (`strings.Split`,
`strings.HasPrefix`, `strings.HasSuffix`, `strings.Contains`,
`strings.TrimSuffix`, `filepath.Ext`, `filepath.Join`).
-/

/-- Model of Go `strings.HasPrefix`. -/
def strStartsWith (s p : String) : Bool :=
  p.data.isPrefixOf s.data

/-- Model of Go `strings.HasSuffix`. -/
def strEndsWith (s p : String) : Bool :=
  p.data.isSuffixOf s.data

/-- Auxiliary scan for `strContains`. -/
def listInfixOf (needle : List Char) : List Char → Bool
  | [] => needle.isEmpty
  | c :: rest => needle.isPrefixOf (c :: rest) || listInfixOf needle rest

/-- Model of Go `strings.Contains`. -/
def strContains (s sub : String) : Bool :=
  listInfixOf sub.data s.data

/-- Drop the first `n` characters of a string. -/
def strDrop (s : String) (n : Nat) : String :=
  String.mk (s.data.drop n)

/-- Model of Go `strings.TrimSuffix`: drop `suf` from the end of `s` when present. -/
def TrimSuffix (s suf : String) : String :=
  if strEndsWith s suf then String.mk (s.data.take (s.data.length - suf.data.length)) else s

/-- Auxiliary splitter for `splitOnChar`, accumulating the current segment reversed. -/
def splitCharsAux (sep : Char) : List Char → List Char → List String
  | [], acc => [String.mk acc.reverse]
  | c :: rest, acc =>
    if c = sep then String.mk acc.reverse :: splitCharsAux sep rest []
    else splitCharsAux sep rest (c :: acc)

/-- Model of Go `strings.Split` with a one-character separator. -/
def splitOnChar (sep : Char) (s : String) : List String :=
  splitCharsAux sep s.data []

/-- Auxiliary scan for `extOf`, walking the reversed character list. -/
def extRevAux : List Char → List Char → List Char
  | [], _ => []
  | c :: rest, acc =>
    if c = '/' then []
    else if c = '.' then c :: acc
    else extRevAux rest (c :: acc)

/-- Model of Go `filepath.Ext`: the suffix from the final dot of the final
slash-separated element, empty when there is no dot. -/
def extOf (p : String) : String :=
  String.mk (extRevAux p.data.reverse [])

/-- Model of Go `filepath.Join` for the shapes the sources use (a root
directory joined with a slash-leading or bare relative path). -/
def joinPath (a b : String) : String :=
  if strStartsWith b "/" then a ++ b else a ++ "/" ++ b

/-! ## Association lists

Go maps used by the sources (`map[string]string`, `map[string]Config`,
`checked` in `NewServer`) are modelled as association lists: lookup finds
the stored entry, insertion replaces an existing binding in place and
appends a fresh one. -/

/-- Lookup in an association list keyed by strings. -/
def lookupStr {α : Type} : List (String × α) → String → Option α
  | [], _ => none
  | (k', v) :: rest, k => if k' = k then some v else lookupStr rest k

/-- Go map assignment `m[k] = v`: replace the binding when the key exists,
append it otherwise. -/
def mapInsert {α : Type} : List (String × α) → String → α → List (String × α)
  | [], k, v => [(k, v)]
  | (k', v') :: rest, k, v =>
    if k' = k then (k, v) :: rest else (k', v') :: mapInsert rest k v

/-! ## Data model: routes -/

/-- Embeds `config.Route` (src/unnamed/part_000, lines 37–40). -/
structure Route where
  Path : String
  To : String
deriving DecidableEq

/-- Modelled from the spec: `strToolkit.TrimStart` is not under src/.
The spec says parameter names are produced with the "marker stripped"
(§4.3), so the marker-string is removed from the front when present. -/
def TrimStart (s p : String) : String :=
  if strStartsWith s p then strDrop s p.data.length else s

/-- Embeds `Route.Params` (src/unnamed/part_000, lines 128–146): split
pattern and uri on `/`, walk positions up to the shorter sequence, skip
empty and non-parameter pattern segments, and bind the stripped parameter
name to the uri segment at the same position. -/
def Params (r : Route) (uri : String) : List (String × String) :=
  let ss1 := splitOnChar '/' r.Path
  let ss2 := splitOnChar '/' uri
  (ss1.zip ss2).foldl
    (fun m kv =>
      if kv.1 = "" then m
      else if ¬ strStartsWith kv.1 ":" = true then m
      else mapInsert m (TrimStart kv.1 ":") kv.2) []

/-- Follows the spec's words (§4.3): "produce a mapping from parameter
name (marker stripped) to the corresponding path segment value, built
positionally, skipping non-parameter segments and stopping at the shorter
of the two segment sequences."  Stated independently of `Params` so the
two can be compared. -/
def paramsSpecList (pattern uri : String) : List (String × String) :=
  ((splitOnChar '/' pattern).zip (splitOnChar '/' uri)).foldl
    (fun m kv =>
      if strStartsWith kv.1 ":" = true then mapInsert m (strDrop kv.1 1) kv.2 else m) []

/-! ## Data model: configuration

`config.Config` (src/unnamed/part_000, lines 18–36) is recursive through
its `Envs` map (`map[string]Config`), so it is an inductive type with a
single constructor; projections and the updates the sources perform are
defined below.  The nested `Lang` struct is flattened into the three
fields `LangDir`, `LangDefault` and `KeyAsValue`, and the loaded string
tables `Strs` are an association list (`none` models a nil Go map). -/

/-- Embeds `config.Config` (src/unnamed/part_000, lines 18–36). -/
inductive Config : Type where
  | mk
    (Host : String) (Port : Int) (Routes : List Route) (NotFoundPage : String)
    (BlackList : List String) (ApiServer : String)
    (Envs : Option (List (String × Config)))
    (LangDir : String) (LangDefault : String) (KeyAsValue : Bool)
    (Root : String) (Env : String) (InternalBlackList : List String)
    (Strs : Option (List (String × List (String × String))))

/-- Projection: `Config.Host`. -/
def Config.Host : Config → String
  | .mk x _ _ _ _ _ _ _ _ _ _ _ _ _ => x

/-- Projection: `Config.Port`. -/
def Config.Port : Config → Int
  | .mk _ x _ _ _ _ _ _ _ _ _ _ _ _ => x

/-- Projection: `Config.Routes`. -/
def Config.Routes : Config → List Route
  | .mk _ _ x _ _ _ _ _ _ _ _ _ _ _ => x

/-- Projection: `Config.NotFoundPage`. -/
def Config.NotFoundPage : Config → String
  | .mk _ _ _ x _ _ _ _ _ _ _ _ _ _ => x

/-- Projection: `Config.BlackList`. -/
def Config.BlackList : Config → List String
  | .mk _ _ _ _ x _ _ _ _ _ _ _ _ _ => x

/-- Projection: `Config.ApiServer`. -/
def Config.ApiServer : Config → String
  | .mk _ _ _ _ _ x _ _ _ _ _ _ _ _ => x

/-- Projection: `Config.Envs`. -/
def Config.Envs : Config → Option (List (String × Config))
  | .mk _ _ _ _ _ _ x _ _ _ _ _ _ _ => x

/-- Projection: `Config.Lang.Dir`. -/
def Config.LangDir : Config → String
  | .mk _ _ _ _ _ _ _ x _ _ _ _ _ _ => x

/-- Projection: `Config.Lang.Default`. -/
def Config.LangDefault : Config → String
  | .mk _ _ _ _ _ _ _ _ x _ _ _ _ _ => x

/-- Projection: `Config.Lang.KeyAsValue`. -/
def Config.KeyAsValue : Config → Bool
  | .mk _ _ _ _ _ _ _ _ _ x _ _ _ _ => x

/-- Projection: `Config.Root`. -/
def Config.Root : Config → String
  | .mk _ _ _ _ _ _ _ _ _ _ x _ _ _ => x

/-- Projection: `Config.Env`. -/
def Config.Env : Config → String
  | .mk _ _ _ _ _ _ _ _ _ _ _ x _ _ => x

/-- Projection: `Config.InternalBlackList`. -/
def Config.InternalBlackList : Config → List String
  | .mk _ _ _ _ _ _ _ _ _ _ _ _ x _ => x

/-- Projection: `Config.Strs`. -/
def Config.Strs : Config → Option (List (String × List (String × String)))
  | .mk _ _ _ _ _ _ _ _ _ _ _ _ _ x => x

/-- Update the `Routes` field. -/
def Config.withRoutes : Config → List Route → Config
  | .mk a b _ d e f g h i j k l m n, x => .mk a b x d e f g h i j k l m n

/-- Update the `Envs` field. -/
def Config.withEnvs : Config → Option (List (String × Config)) → Config
  | .mk a b c d e f _ h i j k l m n, x => .mk a b c d e f x h i j k l m n

/-- Update the three `Lang` sub-fields. -/
def Config.withLang : Config → String → String → Bool → Config
  | .mk a b c d e f g _ _ _ k l m n, dir, dfl, kav => .mk a b c d e f g dir dfl kav k l m n

/-- Update the `Strs` field (the assignments `v.Strs = ...` in `LoadConfig`). -/
def Config.withStrs : Config → Option (List (String × List (String × String))) → Config
  | .mk a b c d e f g h i j k l m _, x => .mk a b c d e f g h i j k l m x

/-- Embeds the constant `config.CONFIG_FILE_NAME` (src/unnamed/part_000, line 43). -/
def CONFIG_FILE_NAME : String := "gte.config.json"

/-- Embeds the default configuration value built at the top of
`config.LoadConfig` (src/unnamed/part_000, lines 47–56). -/
def defaultConfig (env root : String) (port : Int) : Config :=
  .mk "0.0.0.0" port [] "" [] "http://localhost" none "" "" false
    root env ["/" ++ CONFIG_FILE_NAME] none

/-- Modelled from the spec: `util.ReplaceFieldIND` is not under src/.
Spec §4.1: "replace every field of the base configuration with the
override's corresponding field (field-by-field substitution, not a
recursive deep merge — an override that leaves a field at its zero value
wipes the base value for that field)."  Every field of the result is the
override's field; the Go version also returns an error, which the spec
never describes as occurring, so the model is total. -/
def ReplaceFieldIND (_base ov : Config) : Config :=
  .mk ov.Host ov.Port ov.Routes ov.NotFoundPage ov.BlackList ov.ApiServer ov.Envs
    ov.LangDir ov.LangDefault ov.KeyAsValue ov.Root ov.Env ov.InternalBlackList ov.Strs

/-! ## LoadConfig

`config.LoadConfig` (src/unnamed/part_000, lines 46–126) reads and
decodes the descriptor file and enumerates the locale directory.  Those
collaborator calls (`ioutil.ReadFile` + `json.Unmarshal`, `os.Stat`,
`ioutil.ReadDir`, `language.Parse`, `util.LoadJsonLangFile`) are supplied
as inputs: a `Descriptor` describing the outcome of reading and decoding
the descriptor file, and a `String → DirState` oracle for directories. -/

/-- Outcome of `ioutil.ReadFile` + `json.Unmarshal` on the descriptor
file.  `json.Unmarshal` decodes into the default value, overwriting the
fields present in the document, so a successful decode is a function
applied to the defaults; a failed decode may also have partially written
fields before erroring. -/
inductive Descriptor : Type where
  | absent
  | readErr (msg : String)
  | parseErr (msg : String) (touched : Config → Config)
  | parsed (update : Config → Config)

/-- One entry of a locale directory listing: the file name, whether
`language.Parse` accepts the name with the extension stripped, and the
result of `util.LoadJsonLangFile` on the file.  `LoadJsonLangFile` is not
under src/; per the spec (§4.2) it parses the file as a flat key→string
mapping or fails with a message. -/
structure LangFile where
  name : String
  tagValid : Bool
  parsed : Except String (List (String × String))

/-- State of a directory as seen by `os.Stat` + `ioutil.ReadDir`. -/
structure DirState where
  statNotExist : Bool
  listing : Except String (List LangFile)

/-- Modelled from the spec: `util.LANG_FILE_EXT` is not under src/.
Spec §6: locale resource files are named `<bcp47-tag>.<ext>` with the
examples using `.json` (`zh-CN.json`), and `LoadConfig` itself spells the
extension `".json"` in its default-locale error message. -/
def LANG_FILE_EXT : String := ".json"

/-- Embeds the locale-file loop of `LoadConfig` (src/unnamed/part_000,
lines 101–119): skip names without the resource extension, fail on an
invalid locale tag or an unparseable file, otherwise store the table
under the stripped name.  Returns the tables loaded so far together with
the error that stopped the loop, if any. -/
def loadLangFiles :
    List LangFile → List (String × List (String × String)) →
    List (String × List (String × String)) × Option String
  | [], strs => (strs, none)
  | f :: rest, strs =>
    if ¬ strEndsWith f.name LANG_FILE_EXT = true then loadLangFiles rest strs
    else if ¬ f.tagValid = true then
      (strs, some ("Invalid language resource name '" ++ f.name ++ "', e.g. 'zh-HK'"
        ++ LANG_FILE_EXT
        ++ " .https://www.unicode.org/reports/tr35/#Unicode_Language_and_Locale_Identifiers"))
    else
      match f.parsed with
      | .error e =>
        (strs, some ("Reading language resource file '" ++ f.name ++ "' failed: " ++ e))
      | .ok m => loadLangFiles rest (mapInsert strs (TrimSuffix f.name LANG_FILE_EXT) m)

/-- Embeds the language-resource phase of `LoadConfig`
(src/unnamed/part_000, lines 86–124): nothing to do without a configured
directory; the default tag must be set and the directory must exist; the
tables are initialised to an empty non-nil map before the listing is
read; and after the loop, with key-as-value disabled, the default
locale's table must have been loaded. -/
def loadLang (v : Config) (fs : String → DirState) : Config × Option String :=
  if v.LangDir = "" then (v, none)
  else if v.LangDefault = "" then
    (v, some "'lang.dir' configure is set, but default language is not set. e.g. 'zh-HK'")
  else
    if (fs (joinPath v.Root v.LangDir)).statNotExist = true then
      (v, some ("The language directory '" ++ joinPath v.Root v.LangDir ++ "' doesn't exist"))
    else
      match (fs (joinPath v.Root v.LangDir)).listing with
      | .error e => (v.withStrs (some []), some e)
      | .ok files =>
        match loadLangFiles files [] with
        | (strs, some e) => (v.withStrs (some strs), some e)
        | (strs, none) =>
          if v.KeyAsValue = false ∧ lookupStr strs v.LangDefault = none then
            (v.withStrs (some strs),
              some ("The default language resource file '" ++ v.LangDefault ++ ".json' not found"))
          else (v.withStrs (some strs), none)

/-- Embeds the environment-override step of `LoadConfig`
(src/unnamed/part_000, lines 74–84): with a non-nil `envs` map and a
non-empty environment name, a missing entry is an error and a present
entry replaces the configuration via `ReplaceFieldIND`. -/
def applyEnvs (env : String) (v : Config) : Config × Option String :=
  match v.Envs with
  | none => (v, none)
  | some m =>
    if env = "" then (v, none)
    else
      match lookupStr m env with
      | none => (v, some ("No environment named '" ++ env ++ "'"))
      | some v1 => (ReplaceFieldIND v v1, none)

/-- Embeds the descriptor phase of `LoadConfig` (src/unnamed/part_000,
lines 46–84): defaults, early return when the file is absent or
unreadable or undecodable, then the environment override. -/
def applyDescriptor (env root : String) (port : Int) (d : Descriptor) : Config × Option String :=
  match d with
  | .absent => (defaultConfig env root port, none)
  | .readErr msg => (defaultConfig env root port, some msg)
  | .parseErr msg touched => (touched (defaultConfig env root port), some msg)
  | .parsed update => applyEnvs env (update (defaultConfig env root port))

/-- Embeds `config.LoadConfig` (src/unnamed/part_000, lines 46–126):
the descriptor phase followed, when it did not error, by the
language-resource phase. -/
def LoadConfig (env root : String) (port : Int) (d : Descriptor) (fs : String → DirState) :
    Config × Option String :=
  match applyDescriptor env root port d with
  | (v, some e) => (v, some e)
  | (v, none) => loadLang v fs

/-! ## Route matching and server construction -/

/-- Modelled from the spec: one positional segment comparison of
`util.MatchRoute`.  Spec §4.3: "compare segment counts and literal
segments positionally; parameter segments match any non-empty value at
that position." -/
def segMatch (p s : String) : Bool :=
  if strStartsWith p ":" = true then s != "" else p == s

/-- Modelled from the spec: `util.MatchRoute` is not under src/.
Spec §4.3: segments are separated by `/`; the counts must agree and each
pattern segment must match the path segment at its position
(`segMatch`). -/
def MatchRoute (pattern path : String) : Bool :=
  let ps := splitOnChar '/' pattern
  let ss := splitOnChar '/' path
  ps.length == ss.length && (ps.zip ss).all (fun q => segMatch q.1 q.2)

/-- Modelled from the spec: `util.FormatParam` is not under src/.
Spec §4.3 and glossary: the parameterized shape of a route path is the
path "with all parameter segments replaced by a single placeholder
token"; the marker character `:` itself is used as the placeholder. -/
def FormatParam (path : String) : String :=
  String.intercalate "/"
    ((splitOnChar '/' path).map (fun seg => if strStartsWith seg ":" = true then ":" else seg))

/-- Embeds the route-duplication loop of `server.NewServer`
(src/server/server.go, lines 47–56): walk the declared routes in order,
keeping a map from parameterized shape to the raw path that introduced
it; a second route with an already-seen shape is an error naming both raw
paths. -/
def routeDupCheck : List Route → List (String × String) → Option String
  | [], _ => none
  | route :: rest, checked =>
    match lookupStr checked (FormatParam route.Path) with
    | some exists_ =>
      some ("Duplicate route path: '" ++ route.Path ++ "' with '" ++ exists_ ++ "'")
    | none => routeDupCheck rest (mapInsert checked (FormatParam route.Path) route.Path)

/-- Embeds `server.NewServer` (src/server/server.go, lines 32–60)
restricted to its observable validation: construction succeeds with the
given configuration unless the route-duplication check reports an
error. -/
def NewServer (cfg : Config) : Except String Config :=
  match routeDupCheck cfg.Routes [] with
  | some msg => .error msg
  | none => .ok cfg

/-! ## The request resolution pipeline

`Server.ServeHTTP` (src/server/server.go, lines 62–181) is embedded up
to the point where the response strategy is decided: which file is
streamed (and with which negotiated representation), or that the target
is rendered as a template.  The filesystem enters as an existence oracle
`String → Bool` standing for `os.Stat` succeeding. -/

/-- The inbound request data the pipeline consults: the URL path, the
`Accept` and `Accept-Encoding` headers, and the two negotiated locale
tags.  `langShort` and `langFull` stand for `util.GetLangShort(r)` and
`util.GetLang(r)`, which are not under src/; per the spec (§4.4 step 3)
they are the short-form and the full negotiated locale tag of the
request. -/
structure Request where
  path : String
  accept : String
  acceptEncoding : String
  langShort : String
  langFull : String

/-- The decided response strategy at the end of resolution. -/
inductive Outcome : Type where
  | notFound
  | serveWebp (path : String)
  | serveGzipFile (path : String) (ext : String)
  | serveFile (path : String)
  | render (route : Route) (gzipFlag : Bool)
deriving DecidableEq

/-- Whether the outcome is the template-rendering branch. -/
def Outcome.isRender : Outcome → Bool
  | .render _ _ => true
  | _ => false

/-- Modelled from the spec: `util.ShouldCWebp` is not under src/.
Spec §4.4 step 5 speaks of extensions "eligible for image-format
substitution" with `.png` in the spec's example; the exact set is not in
the sources, so the common raster-image extensions are used. -/
def ShouldCWebp (ext : String) : Bool :=
  ext = ".png" || ext = ".jpg" || ext = ".jpeg"

/-- Modelled from the spec: `util.ShouldGZip` is not under src/.
Spec §4.4 step 5 speaks of extensions "eligible for compression"; the
exact set is not in the sources, so common compressible text assets are
used. -/
def ShouldGZip (ext : String) : Bool :=
  ext = ".js" || ext = ".css" || ext = ".svg" || ext = ".json" || ext = ".txt"

/-- Embeds the identity default of `ServeHTTP` (src/server/server.go,
lines 80–86): the target starts as the request path, with the root path
replaced by the index document. -/
def preTarget (p : String) : String :=
  if p = "/" then "/index.html" else p

/-- Embeds the route-matching loop of `ServeHTTP` (src/server/server.go,
lines 96–101): scan the configured routes in declaration order and, for
each that matches the request path, overwrite both the path and the
target with the declared ones. -/
def routeFold (routes : List Route) (path : String) (init : Route) : Route :=
  routes.foldl (fun acc cr => if MatchRoute cr.Path path = true then ⟨cr.Path, cr.To⟩ else acc) init

/-- Embeds lines 80–101 of `ServeHTTP`: identity default, the
locale-suffixed sibling probe (short tag first, then the full tag), and
the route-matching loop applied to the original request path. -/
def resolveRoute (cfg : Config) (fs : String → Bool) (r : Request) : Route :=
  let route0 : Route := ⟨r.path, preTarget r.path⟩
  let ext := extOf route0.To
  let pre := TrimSuffix route0.To ext
  let route1 : Route :=
    if fs (joinPath cfg.Root (pre ++ "_" ++ r.langShort ++ ext)) = true then
      ⟨route0.Path, pre ++ "_" ++ r.langShort ++ ext⟩
    else if fs (joinPath cfg.Root (pre ++ "_" ++ r.langFull ++ ext)) = true then
      ⟨route0.Path, pre ++ "_" ++ r.langFull ++ ext⟩
    else route0
  routeFold cfg.Routes r.path route1

/-- Embeds the pre-compressed sibling lookup of `ServeHTTP`
(src/server/server.go, lines 120–128): for a compressible extension with
gzip advertised and a `.gzip` sibling on disk, serve the sibling with the
extension's canonical content type; otherwise serve the file as is. -/
def gzipStep (fs : String → Bool) (r : Request) (path ext : String) : Outcome :=
  if ShouldGZip ext = true ∧ strContains r.acceptEncoding "gzip" = true then
    if fs (path ++ ".gzip") = true then .serveGzipFile (path ++ ".gzip") ext
    else .serveFile path
  else .serveFile path

/-- Embeds the serve decision of `ServeHTTP` (src/server/server.go,
lines 103–131): markup targets go to template rendering with on-the-fly
gzip when advertised; anything else tries the webp substitution, then the
pre-compressed sibling, then the raw file. -/
def serveStep (cfg : Config) (fs : String → Bool) (r : Request) (route : Route) (ext : String) :
    Outcome :=
  if ext = ".html" then
    .render route (strContains r.acceptEncoding "gzip")
  else if ShouldCWebp ext = true ∧ strContains r.accept "webp" = true then
    if fs (joinPath cfg.Root route.To ++ ".webp") = true then
      .serveWebp (joinPath cfg.Root route.To ++ ".webp")
    else gzipStep fs r (joinPath cfg.Root route.To) ext
  else gzipStep fs r (joinPath cfg.Root route.To) ext

/-- Embeds `Server.ServeHTTP` (src/server/server.go, lines 62–131) after
the pre-handlers: the blacklist check short-circuits to not-found,
otherwise the resolved route is served according to the extension of the
pre-route-match target. -/
def resolve (cfg : Config) (fs : String → Bool) (r : Request) : Outcome :=
  if (cfg.BlackList ++ cfg.InternalBlackList).any (fun black => r.path == black) = true then
    .notFound
  else serveStep cfg fs r (resolveRoute cfg fs r) (extOf (preTarget r.path))

/-! ## Spec-side characterizations

Definitions following the spec's words, used to state the claims about
the pipeline. -/

/-- The last declared route matching `path`, scanning in declaration
order (spec §4.3: "the last matching route wins"). -/
def lastMatch (path : String) : List Route → Option Route
  | [] => none
  | cr :: rest =>
    match lastMatch path rest with
    | some c => some c
    | none => if MatchRoute cr.Path path = true then some cr else none

/-- The locale-suffixed sibling name `<prefix>_<shortTag><ext>` of the
pre-route-match target (spec §4.4 step 3). -/
def localeShortName (r : Request) : String :=
  TrimSuffix (preTarget r.path) (extOf (preTarget r.path)) ++ "_" ++ r.langShort
    ++ extOf (preTarget r.path)

/-- The locale-suffixed sibling name `<prefix>_<fullTag><ext>` of the
pre-route-match target (spec §4.4 step 3). -/
def localeFullName (r : Request) : String :=
  TrimSuffix (preTarget r.path) (extOf (preTarget r.path)) ++ "_" ++ r.langFull
    ++ extOf (preTarget r.path)

/-- The locale-probed target of spec §4.4 step 3: the short-tag sibling
when it exists on disk, else the full-tag sibling when it exists, else
the pre-route-match target. -/
def localeTarget (cfg : Config) (fs : String → Bool) (r : Request) : String :=
  if fs (joinPath cfg.Root (localeShortName r)) = true then localeShortName r
  else if fs (joinPath cfg.Root (localeFullName r)) = true then localeFullName r
  else preTarget r.path

/-! ## Concrete instances

Concrete configurations, requests and filesystem oracles used to
instantiate the theorems below on closed inputs. -/

/-- A configuration with no blacklists and two overlapping routes, both
matching `/x`: a parametric one first and a literal one declared last. -/
def cfgOverlap : Config :=
  .mk "0.0.0.0" 80 [⟨"/:a", "/first.html"⟩, ⟨"/x", "/second.html"⟩] "" [] "http://localhost"
    none "" "" false "root" "" ["/" ++ CONFIG_FILE_NAME] none

/-- A plain configuration rooted at `root` with no routes and no blacklists. -/
def cfgPlain : Config :=
  .mk "0.0.0.0" 80 [] "" [] "http://localhost" none "" "" false "root" ""
    ["/" ++ CONFIG_FILE_NAME] none

/-- A configuration with one rewrite from the extensionless path `/a` to
the markup target `/b.html`. -/
def cfgRewrite : Config :=
  .mk "0.0.0.0" 80 [⟨"/a", "/b.html"⟩] "" [] "http://localhost" none "" "" false "root" ""
    ["/" ++ CONFIG_FILE_NAME] none

/-- A configuration whose user blacklist lists `/secret.txt`. -/
def cfgBlack : Config :=
  .mk "0.0.0.0" 80 [] "" ["/secret.txt"] "http://localhost" none "" "" false "root" ""
    ["/" ++ CONFIG_FILE_NAME] none

/-- Routes with distinct parameterized shapes. -/
def cfgRoutesOk : Config :=
  .mk "0.0.0.0" 80 [⟨"/u/:id", "/a.html"⟩, ⟨"/v/:id", "/b.html"⟩] "" [] "http://localhost"
    none "" "" false "root" "" ["/" ++ CONFIG_FILE_NAME] none

/-- Routes whose parameterized shapes collide (`/u/:` twice). -/
def cfgRoutesDup : Config :=
  .mk "0.0.0.0" 80 [⟨"/u/:id", "/a.html"⟩, ⟨"/u/:name", "/b.html"⟩] "" [] "http://localhost"
    none "" "" false "root" "" ["/" ++ CONFIG_FILE_NAME] none

/-- A request for `/img/logo.png` advertising webp and gzip. -/
def reqWebp : Request :=
  ⟨"/img/logo.png", "image/webp,*/*", "gzip, deflate", "en", "en-US"⟩

/-- A request for `/x` with no negotiation headers. -/
def reqX : Request := ⟨"/x", "", "", "en", "en-US"⟩

/-- A request for `/a` with no negotiation headers. -/
def reqA : Request := ⟨"/a", "", "", "en", "en-US"⟩

/-- A request for `/a.html` whose short locale tag is `zh`. -/
def reqHtml : Request := ⟨"/a.html", "", "", "zh", "zh-CN"⟩

/-- A request for the descriptor file itself. -/
def reqConfigFile : Request := ⟨"/gte.config.json", "", "", "en", "en-US"⟩

/-- A filesystem oracle on which only `root/img/logo.png.webp` exists. -/
def fsWebpOnly : String → Bool := fun p => p == "root/img/logo.png.webp"

/-- A filesystem oracle on which only `root/a_zh.html` exists. -/
def fsZhOnly : String → Bool := fun p => p == "root/a_zh.html"

/-- A filesystem oracle on which nothing exists. -/
def fsNone : String → Bool := fun _ => false

/-- A directory oracle: every directory exists and is empty. -/
def dirsEmpty : String → DirState := fun _ => ⟨false, .ok []⟩

/-- The environment override of the `LoadConfig` override instance: it
sets only the port, leaving every other field at its zero value. -/
def ovPortOnly : Config :=
  .mk "" 8080 [] "" [] "" none "" "" false "" "" [] none

/-- A decoded descriptor declaring one route and a `prod` environment
whose override sets only the port. -/
def descrEnvs : Config → Config := fun v =>
  (v.withRoutes [⟨"/r", "/r.html"⟩]).withEnvs (some [("prod", ovPortOnly)])

/-- A decoded descriptor configuring a locale directory with default tag
`zh-CN` and key-as-value disabled. -/
def descrLang : Config → Config := fun v => v.withLang "lang" "zh-CN" false

/-! ## Helper lemmas -/

/-- The route-matching fold keeps the last declared match, falling back
to its initial value when nothing matches. -/
theorem routeFold_eq_lastMatch (routes : List Route) (path : String) (init : Route) :
    routeFold routes path init =
      (match lastMatch path routes with
       | some cr => (⟨cr.Path, cr.To⟩ : Route)
       | none => init) := by
  induction routes generalizing init with
  | nil => rfl
  | cons cr rest ih =>
    show routeFold rest path (if MatchRoute cr.Path path = true then ⟨cr.Path, cr.To⟩ else init)
      = _
    rw [ih]
    cases h : lastMatch path rest with
    | some c => simp [lastMatch, h]
    | none =>
      simp only [lastMatch, h]
      by_cases hm : MatchRoute cr.Path path = true
      · simp [hm]
      · simp [hm]

/-- `lastMatch` over an appended table prefers a match in the suffix. -/
theorem lastMatch_append (path : String) (xs ys : List Route) :
    lastMatch path (xs ++ ys) =
      (match lastMatch path ys with
       | some c => some c
       | none => lastMatch path xs) := by
  induction xs with
  | nil => cases h : lastMatch path ys <;> simp [lastMatch, h]
  | cons x xs ih =>
    cases h : lastMatch path ys <;> cases h2 : lastMatch path xs <;>
      simp [lastMatch, ih, h, h2]

/-- A table with no matching route yields no last match. -/
theorem lastMatch_eq_none (path : String) (ys : List Route)
    (h : ∀ c ∈ ys, MatchRoute c.Path path = false) : lastMatch path ys = none := by
  induction ys with
  | nil => rfl
  | cons y ys ih =>
    simp only [lastMatch, ih (fun c hc => h c (List.mem_cons_of_mem _ hc))]
    simp [h y (List.mem_cons_self _ _)]

/-- `resolveRoute` is the route-matching fold started from the original
request path paired with the locale-probed target. -/
theorem resolveRoute_eq (cfg : Config) (fs : String → Bool) (r : Request) :
    resolveRoute cfg fs r = routeFold cfg.Routes r.path ⟨r.path, localeTarget cfg fs r⟩ := by
  simp only [resolveRoute, localeTarget, localeShortName, localeFullName]
  split_ifs <;> rfl

/-- Looking up the key just inserted finds the inserted value. -/
theorem lookupStr_mapInsert_self {α : Type} (m : List (String × α)) (k : String) (v : α) :
    lookupStr (mapInsert m k v) k = some v := by
  induction m with
  | nil => simp [mapInsert, lookupStr]
  | cons kv rest ih =>
    by_cases h : kv.1 = k
    · simp [mapInsert, h, lookupStr]
    · simp [mapInsert, h, lookupStr, ih]

/-- Looking up any other key is unaffected by an insertion. -/
theorem lookupStr_mapInsert_ne {α : Type} (m : List (String × α)) (k k' : String) (v : α)
    (h : ¬ k = k') : lookupStr (mapInsert m k v) k' = lookupStr m k' := by
  induction m with
  | nil => simp [mapInsert, lookupStr, h]
  | cons kv rest ih =>
    by_cases h2 : kv.1 = k
    · simp [mapInsert, h2, lookupStr, h]
    · simp [mapInsert, h2, lookupStr, ih]

/-- A successful lookup exhibits a stored entry. -/
theorem lookupStr_mem {α : Type} (m : List (String × α)) (k : String) (v : α)
    (h : lookupStr m k = some v) : (k, v) ∈ m := by
  induction m with
  | nil => exact absurd h (by simp [lookupStr])
  | cons kv rest ih =>
    by_cases h2 : kv.1 = k
    · simp only [lookupStr, if_pos h2] at h
      injection h with h'
      have hkv : kv = (k, v) := by
        obtain ⟨a, b⟩ := kv
        simp only at h2 h'
        rw [h2, h']
      rw [hkv]
      exact List.mem_cons_self _ _
    · right
      simp only [lookupStr, if_neg h2] at h
      exact ih h

/-- Every entry of `mapInsert m k v` is the new binding or an entry of `m`. -/
theorem mapInsert_mem {α : Type} (m : List (String × α)) (k : String) (v : α)
    (x : String × α) (h : x ∈ mapInsert m k v) : x = (k, v) ∨ x ∈ m := by
  induction m with
  | nil => simp only [mapInsert] at h; left; simpa using h
  | cons kv rest ih =>
    by_cases h2 : kv.1 = k
    · simp only [mapInsert, if_pos h2] at h
      rcases List.mem_cons.mp h with h3 | h3
      · left; exact h3
      · right; exact List.mem_cons_of_mem _ h3
    · simp only [mapInsert, if_neg h2] at h
      rcases List.mem_cons.mp h with h3 | h3
      · right; rw [h3]; exact List.mem_cons_self _ _
      · rcases ih h3 with h4 | h4
        · left; exact h4
        · right; exact List.mem_cons_of_mem _ h4

/-- When the duplication scan succeeds, the parameterized shapes of the
scanned routes are pairwise distinct and none of them was already in the
`checked` map. -/
theorem routeDupCheck_none_nodup (routes : List Route) (checked : List (String × String))
    (h : routeDupCheck routes checked = none) :
    (routes.map (fun route => FormatParam route.Path)).Nodup
    ∧ ∀ route ∈ routes, lookupStr checked (FormatParam route.Path) = none := by
  induction routes generalizing checked with
  | nil => exact ⟨List.nodup_nil, by simp⟩
  | cons route rest ih =>
    rw [routeDupCheck] at h
    cases hlk : lookupStr checked (FormatParam route.Path) with
    | some p => rw [hlk] at h; exact absurd h (by simp)
    | none =>
      rw [hlk] at h
      obtain ⟨hnd, hall⟩ := ih _ h
      have hne : ∀ r' ∈ rest, ¬ FormatParam r'.Path = FormatParam route.Path := by
        intro r' hr' heq
        have h5 := hall r' hr'
        rw [heq, lookupStr_mapInsert_self] at h5
        exact Option.noConfusion h5
      have hrest : ∀ r' ∈ rest, lookupStr checked (FormatParam r'.Path) = none := by
        intro r' hr'
        have h5 := hall r' hr'
        rwa [lookupStr_mapInsert_ne _ _ _ _ (fun hfp => hne r' hr' hfp.symm)] at h5
      refine ⟨List.nodup_cons.mpr ⟨?_, hnd⟩, ?_⟩
      · intro hmem
        obtain ⟨r', hr', heq⟩ := List.mem_map.mp hmem
        exact hne r' hr' heq
      · intro r' hr'
        rcases List.mem_cons.mp hr' with h6 | h6
        · rw [h6]; exact hlk
        · exact hrest r' h6

/-- When the scanned routes have pairwise-distinct parameterized shapes
that are all absent from the `checked` map, the duplication scan
succeeds. -/
theorem routeDupCheck_ok (routes : List Route) (checked : List (String × String))
    (hnd : (routes.map (fun route => FormatParam route.Path)).Nodup)
    (hclean : ∀ route ∈ routes, lookupStr checked (FormatParam route.Path) = none) :
    routeDupCheck routes checked = none := by
  induction routes generalizing checked with
  | nil => rfl
  | cons route rest ih =>
    rw [routeDupCheck, hclean route (List.mem_cons_self _ _)]
    show routeDupCheck rest (mapInsert checked (FormatParam route.Path) route.Path) = none
    refine ih _ (List.Nodup.of_cons hnd) ?_
    intro r' hr'
    have hne : ¬ FormatParam route.Path = FormatParam r'.Path := by
      intro heq
      exact (List.nodup_cons.mp hnd).1 (List.mem_map.mpr ⟨r', hr', heq.symm⟩)
    rw [lookupStr_mapInsert_ne _ _ _ _ hne]
    exact hclean r' (List.mem_cons_of_mem _ hr')

/-- When the duplication scan fails, the reported message names a pair of
raw route paths with equal parameterized shapes: the first comes from the
already-recorded entries (described by `prior`) or from the scanned list,
the second from the scanned list, in declaration order. -/
theorem routeDupCheck_some_pair (routes : List Route) (checked : List (String × String))
    (prior : List String) (msg : String)
    (hinv : ∀ f p, (f, p) ∈ checked → f = FormatParam p ∧ p ∈ prior)
    (h : routeDupCheck routes checked = some msg) :
    ∃ a b, [a, b].Sublist (prior ++ routes.map Route.Path)
      ∧ FormatParam a = FormatParam b
      ∧ msg = "Duplicate route path: '" ++ b ++ "' with '" ++ a ++ "'" := by
  induction routes generalizing checked prior with
  | nil => exact absurd h (by simp [routeDupCheck])
  | cons route rest ih =>
    rw [routeDupCheck] at h
    cases hlk : lookupStr checked (FormatParam route.Path) with
    | some p =>
      rw [hlk] at h
      injection h with h'
      obtain ⟨hf, hmem⟩ := hinv _ _ (lookupStr_mem _ _ _ hlk)
      refine ⟨p, route.Path, ?_, hf.symm, h'.symm⟩
      have h1 : [p].Sublist prior := List.singleton_sublist.mpr hmem
      have h2 : [route.Path].Sublist (route.Path :: rest.map Route.Path) :=
        (List.nil_sublist _).cons₂ _
      simpa using List.Sublist.append h1 h2
    | none =>
      rw [hlk] at h
      have h' : routeDupCheck rest (mapInsert checked (FormatParam route.Path) route.Path)
          = some msg := h
      have hinv' : ∀ f p,
          (f, p) ∈ mapInsert checked (FormatParam route.Path) route.Path →
          f = FormatParam p ∧ p ∈ prior ++ [route.Path] := by
        intro f p hp
        rcases mapInsert_mem _ _ _ _ hp with h3 | h3
        · injection h3 with h4 h5
          constructor
          · rw [h4, h5]
          · rw [h5]; exact List.mem_append_right _ (List.mem_singleton.mpr rfl)
        · obtain ⟨h4, h5⟩ := hinv _ _ h3
          exact ⟨h4, List.mem_append_left _ h5⟩
      obtain ⟨a, b, hs, heq, hmsg⟩ := ih _ _ hinv' h'
      refine ⟨a, b, ?_, heq, hmsg⟩
      rw [List.map_cons]
      have : prior ++ [route.Path] ++ rest.map Route.Path
          = prior ++ route.Path :: rest.map Route.Path := by
        rw [List.append_assoc]
        rfl
      rwa [this] at hs

/-- The pre-compressed sibling step never renders a template. -/
theorem gzipStep_isRender (fs : String → Bool) (r : Request) (path ext : String) :
    (gzipStep fs r path ext).isRender = false := by
  unfold gzipStep
  split_ifs <;> rfl

/-- The serve decision renders exactly when the extension it is given is
the markup extension. -/
theorem serveStep_isRender (cfg : Config) (fs : String → Bool) (r : Request) (route : Route)
    (ext : String) : ((serveStep cfg fs r route ext).isRender = true ↔ ext = ".html") := by
  unfold serveStep
  split_ifs with h1 h2 h3
  · simp [Outcome.isRender, h1]
  · simp [Outcome.isRender, h1]
  · simp [gzipStep_isRender, h1]
  · simp [gzipStep_isRender, h1]

/-! ## Claim theorems -/

/-- C2: For every request path and every configured route table, the
route-matching loop of `ServeHTTP` scans the table in declaration order
and, when multiple declared routes match the path, the last declared
matching route determines the replaced path and target (last-match-wins);
being a function of the table and the path, matching is deterministic.
Stated for an arbitrary decomposition of the table around the last
matching declaration: everything declared after `cr` fails to match,
`l1` before it is unconstrained, and the resolved route is `cr`'s
declared path and target. -/
theorem route_last_match_wins (cfg : Config) (fs : String → Bool) (r : Request)
    (l1 l2 : List Route) (cr : Route)
    (hr : cfg.Routes = l1 ++ cr :: l2)
    (hm : MatchRoute cr.Path r.path = true)
    (h2 : ∀ c ∈ l2, MatchRoute c.Path r.path = false) :
    resolveRoute cfg fs r = ⟨cr.Path, cr.To⟩ := by
  have hcons : lastMatch r.path (cr :: l2) = some cr := by
    simp [lastMatch, lastMatch_eq_none r.path l2 h2, hm]
  rw [resolveRoute_eq, routeFold_eq_lastMatch, hr, lastMatch_append, hcons]

/-- Witness for C2: with routes `/:a` then `/x` both matching the request
path `/x`, the last declared route `/x → /second.html` wins. -/
theorem route_last_match_wins_witness :
    resolveRoute cfgOverlap fsNone reqX = ⟨"/x", "/second.html"⟩ :=
  route_last_match_wins cfgOverlap fsNone reqX [⟨"/:a", "/first.html"⟩] [] ⟨"/x", "/second.html"⟩
    rfl (by decide) (by intro c hc; exact absurd hc (List.not_mem_nil c))

/-- C3: The resolver probes for the locale-suffixed sibling (preferring
the short tag over the full tag) before route matching, matches routes
against the original request path (not the locale-substituted target),
and on a route match replaces both path and target with the declared
ones.  Formally, the resolved route is fully characterized by the last
declared route matching the *original* path — in which case both fields
come from the declaration, for every filesystem — and only when no route
matches does the locale-probed target survive; moreover the short-tag
sibling is preferred whenever it exists on disk. -/
theorem locale_probe_before_routes (cfg : Config) (fs : String → Bool) (r : Request) :
    (resolveRoute cfg fs r =
      (match lastMatch r.path cfg.Routes with
       | some cr => (⟨cr.Path, cr.To⟩ : Route)
       | none => ⟨r.path, localeTarget cfg fs r⟩))
    ∧ (fs (joinPath cfg.Root (localeShortName r)) = true →
        localeTarget cfg fs r = localeShortName r) := by
  constructor
  · rw [resolveRoute_eq, routeFold_eq_lastMatch]
  · intro h
    simp [localeTarget, h]

/-- Witness for C3: with no routes and `root/a_zh.html` on disk, the
request `/a.html` with short tag `zh` resolves to the locale-substituted
target, which is the short-tag sibling. -/
theorem locale_probe_before_routes_witness :
    resolveRoute cfgPlain fsZhOnly reqHtml = ⟨"/a.html", localeTarget cfgPlain fsZhOnly reqHtml⟩
    ∧ localeTarget cfgPlain fsZhOnly reqHtml = localeShortName reqHtml := by
  have h := locale_probe_before_routes cfgPlain fsZhOnly reqHtml
  exact ⟨h.1, h.2 (by decide)⟩

/-- C4: For a non-markup extension eligible for webp substitution, with
webp advertised in the Accept header and the `.webp` sibling of the
resolved target on disk, resolution serves that sibling and terminates:
the outcome is the webp file itself, so no gzip negotiation (and no
content-encoding header) is applied to the substituted asset. -/
theorem webp_substitution_terminates (cfg : Config) (fs : String → Bool) (r : Request)
    (hbl : (cfg.BlackList ++ cfg.InternalBlackList).any (fun black => r.path == black) = false)
    (hext : ¬ extOf (preTarget r.path) = ".html")
    (hel : ShouldCWebp (extOf (preTarget r.path)) = true)
    (hacc : strContains r.accept "webp" = true)
    (hfs : fs (joinPath cfg.Root (resolveRoute cfg fs r).To ++ ".webp") = true) :
    resolve cfg fs r
      = .serveWebp (joinPath cfg.Root (resolveRoute cfg fs r).To ++ ".webp") := by
  unfold resolve
  rw [hbl]
  rw [if_neg (by simp)]
  unfold serveStep
  rw [if_neg hext, if_pos ⟨hel, hacc⟩, if_pos hfs]

/-- Witness for C4: `/img/logo.png` with `Accept: image/webp` and
`root/img/logo.png.webp` on disk is served as the webp file. -/
theorem webp_substitution_terminates_witness :
    resolve cfgPlain fsWebpOnly reqWebp = .serveWebp "root/img/logo.png.webp" :=
  webp_substitution_terminates cfgPlain fsWebpOnly reqWebp (by decide) (by decide) (by decide)
    (by decide) (by decide)

/-- C5: A request whose raw path equals an entry of the user blacklist or
of the internal blacklist resolves to not-found before any route
matching: the outcome is not-found for every route table and every
filesystem.  The internal blacklist of a loaded configuration starts as
exactly the descriptor file's own path. -/
theorem blacklist_short_circuits (cfg : Config) (fs : String → Bool) (r : Request)
    (h : r.path ∈ cfg.BlackList ++ cfg.InternalBlackList) :
    (∀ routes : List Route, resolve (cfg.withRoutes routes) fs r = .notFound)
    ∧ (∀ (env root : String) (port : Int),
        (defaultConfig env root port).InternalBlackList = ["/" ++ CONFIG_FILE_NAME]) := by
  constructor
  · intro routes
    have hmem : r.path ∈ (cfg.withRoutes routes).BlackList
        ++ (cfg.withRoutes routes).InternalBlackList := by
      cases cfg
      exact h
    have hb : ((cfg.withRoutes routes).BlackList ++ (cfg.withRoutes routes).InternalBlackList).any
        (fun black => r.path == black) = true :=
      List.any_eq_true.mpr ⟨r.path, hmem, by simp⟩
    unfold resolve
    rw [hb, if_pos rfl]
  · intro env root port
    rfl

/-- Witness for C5: the descriptor file's own path is blacklisted even
when a route table matches it. -/
theorem blacklist_short_circuits_witness :
    resolve (cfgPlain.withRoutes [⟨"/gte.config.json", "/leak.html"⟩]) fsNone reqConfigFile
      = .notFound
    ∧ (defaultConfig "" "r" 80).InternalBlackList = ["/gte.config.json"] := by
  have h := blacklist_short_circuits cfgPlain fsNone reqConfigFile (by decide)
  exact ⟨h.1 [⟨"/gte.config.json", "/leak.html"⟩], h.2 "" "r" 80⟩

/-- C10: The extension deciding between the template-rendering branch and
the static-serving branch (and gating webp/gzip eligibility) is computed
from the pre-route-match target — the request path with the root path
replaced by the index document — not from the route-rewritten target: for
a non-blacklisted request, the outcome renders a template exactly when
that pre-route-match extension is `.html`, whatever the route table
rewrote the target to. -/
theorem branch_ext_from_request_path (cfg : Config) (fs : String → Bool) (r : Request)
    (hbl : (cfg.BlackList ++ cfg.InternalBlackList).any (fun black => r.path == black) = false) :
    ((resolve cfg fs r).isRender = true ↔ extOf (preTarget r.path) = ".html") := by
  unfold resolve
  rw [hbl]
  rw [if_neg (by simp)]
  exact serveStep_isRender cfg fs r (resolveRoute cfg fs r) (extOf (preTarget r.path))

/-- Witness for C10: the route `/a → /b.html` rewrites the target to a
markup file, but the request path `/a` has no extension, so the request
is served through the static branch, not rendered. -/
theorem branch_ext_from_request_path_witness :
    (resolve cfgRewrite fsNone reqA).isRender = false := by
  have h := branch_ext_from_request_path cfgRewrite fsNone reqA (by decide)
  have h2 : ¬ extOf (preTarget reqA.path) = ".html" := by decide
  cases hb : (resolve cfgRewrite fsNone reqA).isRender
  · rfl
  · exact absurd (h.mp hb) h2

/-- C7: Server construction validates route uniqueness: when no two
routes share a parameterized shape (all parameter segments normalized to
one placeholder), construction succeeds with the configuration; when two
do, construction fails — before any request is served — with an error
naming both conflicting raw route paths, the earlier declaration and the
later one, in declaration order. -/
theorem newServer_route_uniqueness (cfg : Config) :
    ((cfg.Routes.map (fun route => FormatParam route.Path)).Nodup → NewServer cfg = .ok cfg)
    ∧ (¬ (cfg.Routes.map (fun route => FormatParam route.Path)).Nodup →
        ∃ a b, [a, b].Sublist (cfg.Routes.map Route.Path)
          ∧ FormatParam a = FormatParam b
          ∧ NewServer cfg = .error ("Duplicate route path: '" ++ b ++ "' with '" ++ a ++ "'")) := by
  constructor
  · intro hnd
    unfold NewServer
    rw [routeDupCheck_ok cfg.Routes [] hnd (fun route _ => rfl)]
  · intro hnd
    cases hchk : routeDupCheck cfg.Routes [] with
    | none => exact absurd (routeDupCheck_none_nodup _ _ hchk).1 hnd
    | some msg =>
      obtain ⟨a, b, hs, heq, hmsg⟩ := routeDupCheck_some_pair cfg.Routes [] [] msg
        (fun f p hp => absurd hp (List.not_mem_nil _)) hchk
      refine ⟨a, b, by simpa using hs, heq, ?_⟩
      unfold NewServer
      rw [hchk, hmsg]

/-- Witness for C7: distinct shapes `/u/:` and `/v/:` are accepted;
colliding shapes `/u/:id` and `/u/:name` are rejected naming both. -/
theorem newServer_route_uniqueness_witness :
    NewServer cfgRoutesOk = .ok cfgRoutesOk
    ∧ ∃ a b, [a, b].Sublist (cfgRoutesDup.Routes.map Route.Path)
        ∧ FormatParam a = FormatParam b
        ∧ NewServer cfgRoutesDup
            = .error ("Duplicate route path: '" ++ b ++ "' with '" ++ a ++ "'") :=
  ⟨(newServer_route_uniqueness cfgRoutesOk).1 (by decide),
   (newServer_route_uniqueness cfgRoutesDup).2 (by decide)⟩

/-- C9: Parameter extraction returns the mapping from each parameter name
(marker stripped) to the path segment at the same position, built
positionally, skipping non-parameter segments and stopping at the shorter
of the two segment sequences — i.e. `Params` agrees with the mapping the
spec describes — and extracting `/users/:id/posts/:postId` against
`/users/42/posts/7` yields exactly `{id: "42", postId: "7"}`. -/
theorem params_positional_extraction :
    (∀ (r : Route) (uri : String), Params r uri = paramsSpecList r.Path uri)
    ∧ Params ⟨"/users/:id/posts/:postId", ""⟩ "/users/42/posts/7" = [("id", "42"), ("postId", "7")]
    ∧ lookupStr (Params ⟨"/users/:id/posts/:postId", ""⟩ "/users/42/posts/7") "id" = some "42"
    ∧ lookupStr (Params ⟨"/users/:id/posts/:postId", ""⟩ "/users/42/posts/7") "postId"
        = some "7" := by
  refine ⟨?_, by decide, by decide, by decide⟩
  intro r uri
  unfold Params paramsSpecList
  apply List.foldl_ext
  intro m kv hkv
  by_cases h1 : kv.1 = ""
  · have h0 : strStartsWith "" ":" = false := by decide
    simp [h1, h0]
  · by_cases h2 : strStartsWith kv.1 ":" = true
    · have hlen : (":".data.length) = 1 := by decide
      have ht : TrimStart kv.1 ":" = strDrop kv.1 1 := by
        unfold TrimStart
        rw [if_pos h2, hlen]
      simp [h1, h2, ht]
    · simp [h1, h2]

/-- C1: With a non-empty environment name declared in the decoded
descriptor's envs map, `LoadConfig` replaces every field of the base
configuration with the override's corresponding field — the merged
configuration is exactly the override, so a field left at its zero value
in the override wipes the base value for that field.  (The override must
not configure a locale directory, so that the subsequent locale phase
leaves it untouched.) -/
theorem env_override_replaces_every_field (env root : String) (port : Int)
    (update : Config → Config) (fs : String → DirState)
    (m : List (String × Config)) (ov : Config)
    (henv : ¬ env = "")
    (hm : (update (defaultConfig env root port)).Envs = some m)
    (hov : lookupStr m env = some ov)
    (hld : ov.LangDir = "") :
    LoadConfig env root port (.parsed update) fs = (ov, none) := by
  have hrep : ReplaceFieldIND (update (defaultConfig env root port)) ov = ov := by
    cases ov
    rfl
  have happ : applyDescriptor env root port (.parsed update) = (ov, none) := by
    simp only [applyDescriptor, applyEnvs, hm, hov, hrep, if_neg henv]
  unfold LoadConfig
  rw [happ]
  show loadLang ov fs = (ov, none)
  unfold loadLang
  rw [hld]
  simp

/-- Witness for C1: the base declares a route list and a `prod` override
that sets only `port`; the merged configuration is the override verbatim,
so its port is the override's `8080` and its route list is empty. -/
theorem env_override_replaces_every_field_witness :
    LoadConfig "prod" "base" 80 (.parsed descrEnvs) dirsEmpty = (ovPortOnly, none)
    ∧ ovPortOnly.Port = 8080 ∧ ovPortOnly.Routes = [] :=
  ⟨env_override_replaces_every_field "prod" "base" 80 descrEnvs dirsEmpty
      [("prod", ovPortOnly)] ovPortOnly (by decide) rfl rfl rfl,
   rfl, rfl⟩

/-- C8: When the descriptor file is absent, `LoadConfig` returns the
default configuration — bind-all host, the given port and root, an
internal blacklist holding exactly the descriptor's own path, and the
default upstream base URL — with no error; when the file is present but
fails to decode, the decode error is returned to the caller. -/
theorem loadConfig_absent_defaults_and_parse_error (env root : String) (port : Int)
    (fs : String → DirState) :
    (LoadConfig env root port .absent fs = (defaultConfig env root port, none))
    ∧ (defaultConfig env root port).Host = "0.0.0.0"
    ∧ (defaultConfig env root port).Port = port
    ∧ (defaultConfig env root port).Root = root
    ∧ (defaultConfig env root port).InternalBlackList = ["/" ++ CONFIG_FILE_NAME]
    ∧ (defaultConfig env root port).ApiServer = "http://localhost"
    ∧ (∀ (msg : String) (touched : Config → Config),
        LoadConfig env root port (.parseErr msg touched) fs
          = (touched (defaultConfig env root port), some msg)) :=
  ⟨rfl, rfl, rfl, rfl, rfl, rfl, fun _ _ => rfl⟩

/-- C6: With a locale directory configured and key-as-value disabled,
`LoadConfig` fails with the default-locale-missing error whenever, after
loading all locale resource files, no loaded table exists for the default
tag; with the fallback enabled or the default table loaded, the check
passes and the load succeeds. -/
theorem default_locale_presence_check (env root : String) (port : Int) (d : Descriptor)
    (fs : String → DirState) (v : Config) (files : List LangFile)
    (strs : List (String × List (String × String)))
    (happly : applyDescriptor env root port d = (v, none))
    (hdir : ¬ v.LangDir = "")
    (hdef : ¬ v.LangDefault = "")
    (hex : (fs (joinPath v.Root v.LangDir)).statNotExist = false)
    (hls : (fs (joinPath v.Root v.LangDir)).listing = .ok files)
    (hload : loadLangFiles files [] = (strs, none)) :
    (v.KeyAsValue = false → lookupStr strs v.LangDefault = none →
      LoadConfig env root port d fs
        = (v.withStrs (some strs),
           some ("The default language resource file '" ++ v.LangDefault ++ ".json' not found")))
    ∧ (v.KeyAsValue = true ∨ (∃ mtab, lookupStr strs v.LangDefault = some mtab) →
      LoadConfig env root port d fs = (v.withStrs (some strs), none)) := by
  have hL : LoadConfig env root port d fs = loadLang v fs := by
    unfold LoadConfig
    rw [happly]
  have hstep : loadLang v fs
      = if v.KeyAsValue = false ∧ lookupStr strs v.LangDefault = none then
          (v.withStrs (some strs),
            some ("The default language resource file '" ++ v.LangDefault ++ ".json' not found"))
        else (v.withStrs (some strs), none) := by
    unfold loadLang
    simp [hdir, hdef, hex, hls, hload]
  constructor
  · intro hkv hnone
    rw [hL, hstep, if_pos ⟨hkv, hnone⟩]
  · intro hor
    rw [hL, hstep, if_neg ?_]
    rintro ⟨h1, h2⟩
    rcases hor with h3 | ⟨mtab, h3⟩
    · rw [h3] at h1
      exact Bool.noConfusion h1
    · rw [h3] at h2
      exact Option.noConfusion h2

/-- Witness for C6: a configured locale directory with default `zh-CN`,
key-as-value disabled, and an empty resource directory makes the load
fail with the default-locale-missing error. -/
theorem default_locale_presence_check_witness :
    LoadConfig "" "r" 80 (.parsed descrLang) dirsEmpty
      = (((defaultConfig "" "r" 80).withLang "lang" "zh-CN" false).withStrs (some []),
         some "The default language resource file 'zh-CN.json' not found") :=
  (default_locale_presence_check "" "r" 80 (.parsed descrLang) dirsEmpty
      ((defaultConfig "" "r" 80).withLang "lang" "zh-CN" false) [] []
      rfl (by decide) (by decide) rfl rfl rfl).1 rfl rfl

end Gte
